import Mathlib

/-!
Verification of the derived-metrics core of the GDP Explorer dashboard
(`src/app.py`).

Embedding conventions:
- A pandas cell that may be `NaN` (missing) is modelled as `Option ℚ`:
  `none` is the "no value" sentinel (`np.nan` in the source), `some v`
  a present numeric value.  Ideal float arithmetic is modelled by exact
  rational arithmetic.
- A dataframe row is a function `ℤ → Option ℚ` from period identifiers
  (year column names, which the source converts to `int` for ordering)
  to optional values.
- `sorted(year_cols, key=int)` / `key=int, reverse=True` become
  `List.insertionSort` with the ascending / descending order on `ℤ`.
- The float power `x ** (1.0 / n)` inside `cagr` is abstracted as an
  explicit function parameter `rt : α → ℤ → α` (`rt x n` stands for the
  n-th root of `x`), applied only where the float power is defined; the
  IEEE-754 domain error of the power — NaN for a negative base with a
  non-integer exponent, which is how numpy evaluates it on the
  dataframe's float64 values — is modelled by an explicit sentinel
  branch.  The definition is generic in a linear ordered field so it can
  be instantiated both with `ℚ` (for executable checks) and with `ℝ` and
  `Real.rpow` (for the numeric CAGR scenario).
- `np.std` (default `ddof=0`) is modelled with an abstract square root
  `sq : ℚ → ℚ` applied to the exactly-computed mean of squared
  deviations.
-/

namespace GDPExplorer

/-- Ascending sort of period identifiers, modelling
`sorted([...], key=lambda x: int(x))` in `get_year_cols`. -/
def sortAsc (l : List ℤ) : List ℤ := l.insertionSort (· ≤ ·)

/-- Descending sort of period identifiers, modelling
`sorted(year_cols, key=int, reverse=True)` in `latest_value`. -/
def sortDesc (l : List ℤ) : List ℤ := l.insertionSort (fun a b => b ≤ a)

/-- `get_year_cols` (src/app.py line 21): the year columns sorted
ascending by their integer value. -/
def get_year_cols (cols : List ℤ) : List ℤ := sortAsc cols

/-- The scanning loop of `latest_value` (src/app.py lines 25-28): walk the
given period list in order and return the first present value with its
period, or the sentinel pair if none is present. -/
def latest_scan (row : ℤ → Option ℚ) : List ℤ → Option (ℚ × ℤ)
  | [] => none
  | y :: ys =>
    match row y with
    | some v => some (v, y)
    | none => latest_scan row ys

/-- `latest_value` (src/app.py lines 24-28): scan the year columns in
descending order, returning the first present value and its year, or the
sentinel pair `(np.nan, np.nan)` — modelled as `none` — if all are missing. -/
def latest_value (row : ℤ → Option ℚ) (year_cols : List ℤ) : Option (ℚ × ℤ) :=
  latest_scan row (sortDesc year_cols)

/-- `pct_change` (src/app.py lines 30-33): `nan` if either input is
missing or `a == 0`, otherwise `(b - a) / a * 100.0`. -/
def pct_change (a b : Option ℚ) : Option ℚ :=
  match a, b with
  | some a, some b => if a = 0 then none else some ((b - a) / a * 100)
  | _, _ => none

/-- `cagr` (src/app.py lines 35-38): `nan` if either endpoint is missing,
`a <= 0`, or `n_years <= 0`, otherwise `((b / a) ** (1.0 / n_years) - 1.0)
* 100.0`.  The float power is abstracted by the parameter `rt`, with
`rt x n` standing for `x ** (1.0 / n)`.  Past the guard `n_years ≥ 1`, so
the exponent `1.0 / n_years` is non-integral exactly when `n_years ≠ 1`;
numpy's float64 power then yields `NaN` for a negative base (IEEE-754
`pow` domain error), which propagates to a `NaN` result — the middle
branch models this with the "no value" sentinel, so `rt` is only applied
where the float power is defined. -/
def cagr {α : Type} [LinearOrderedField α] (rt : α → ℤ → α)
    (a b : Option α) (n_years : ℤ) : Option α :=
  match a, b with
  | some a, some b =>
    if a ≤ 0 ∨ n_years ≤ 0 then none
    else if b / a < 0 ∧ n_years ≠ 1 then none
    else some ((rt (b / a) n_years - 1) * 100)
  | _, _ => none

/-- The pairwise loop of `annual_growth_series` (src/app.py lines 50-54):
for each consecutive pair of values, append `(b - a) / a * 100.0` when both
are present and `a > 0`, otherwise skip the transition. -/
def annual_growth_loop : List (Option ℚ) → List ℚ
  | [] => []
  | [_] => []
  | a :: b :: rest =>
    match a, b with
    | some a', some b' =>
      if 0 < a' then ((b' - a') / a' * 100) :: annual_growth_loop (b :: rest)
      else annual_growth_loop (b :: rest)
    | _, _ => annual_growth_loop (b :: rest)

/-- `annual_growth_series` (src/app.py lines 47-55): read the row's own
year columns sorted ascending (`get_year_cols(row.to_frame().T)`), look up
the value at each, and run the pairwise growth loop. -/
def annual_growth_series (row : ℤ → Option ℚ) (row_cols : List ℤ) : List ℚ :=
  annual_growth_loop ((get_year_cols row_cols).map row)

/-- The pairwise loop of the inline `series_growth` (src/app.py lines
194-198), textually identical to the loop of `annual_growth_series` but a
separate piece of code in the source. -/
def series_growth_loop : List (Option ℚ) → List ℚ
  | [] => []
  | [_] => []
  | a :: b :: rest =>
    match a, b with
    | some a', some b' =>
      if 0 < a' then ((b' - a') / a' * 100) :: series_growth_loop (b :: rest)
      else series_growth_loop (b :: rest)
    | _, _ => series_growth_loop (b :: rest)

/-- `series_growth` (src/app.py lines 192-199): look the row up at the
ambient `year_cols` (already sorted ascending by `get_year_cols(df)`) in the
order given, and run its pairwise growth loop. -/
def series_growth (row : ℤ → Option ℚ) (year_cols : List ℤ) : List ℚ :=
  series_growth_loop (year_cols.map row)

/-- `np.std(g)` with its default `ddof=0` (src/app.py line 202): the square
root — abstracted as `sq` — of the mean of squared deviations from the mean,
with divisor `g.length`. -/
def np_std (sq : ℚ → ℚ) (g : List ℚ) : ℚ :=
  sq ((g.map (fun x => (x - g.sum / g.length) ^ 2)).sum / g.length)

/-- The `Volatility_SD` column (src/app.py lines 201-202):
`np.std(series_growth(r))` when the growth list is non-empty, else `np.nan`. -/
def Volatility_SD (sq : ℚ → ℚ) (g : List ℚ) : Option ℚ :=
  if 0 < g.length then some (np_std sq g) else none

/-- The `Avg_Annual_Growth` column (src/app.py lines 203-204):
`np.nanmean(series_growth(r))` when the growth list is non-empty, else
`np.nan`; the growth list never contains `NaN`, so `nanmean` is the mean. -/
def Avg_Annual_Growth (g : List ℚ) : Option ℚ :=
  if 0 < g.length then some (g.sum / g.length) else none

/-- Population variance (divisor `n`, `ddof=0`), written from the spec's
wording for comparison with `np_std`. -/
def popVariance (g : List ℚ) : ℚ :=
  (g.map (fun x => (x - g.sum / g.length) ^ 2)).sum / g.length

/-- Sample variance (divisor `n - 1`, `ddof=1`), written from the spec's
wording for comparison with `np_std`. -/
def sampleVariance (g : List ℚ) : ℚ :=
  (g.map (fun x => (x - g.sum / g.length) ^ 2)).sum / ((g.length : ℚ) - 1)

/-- The surviving-transition map used to characterise the growth loop: a
consecutive pair contributes a percent change exactly when both endpoints
are present and the earlier one is positive. -/
def gstep (p : Option ℚ × Option ℚ) : Option ℚ :=
  match p.1, p.2 with
  | some a, some b => if 0 < a then some ((b - a) / a * 100) else none
  | _, _ => none

/-- The spec's example row with values at periods 2020 and 2022 only. -/
def exRow : ℤ → Option ℚ := fun y =>
  if y = 2020 then some 10 else if y = 2022 then some 30 else none

/-- The spec's example row with values `[100, 110, missing, 99]` over
periods 2020-2023. -/
def growRow : ℤ → Option ℚ := fun y =>
  if y = 2020 then some 100 else if y = 2021 then some 110
  else if y = 2023 then some 99 else none

instance : IsTotal ℤ (fun a b => b ≤ a) := ⟨fun a b => le_total b a⟩

instance : IsTrans ℤ (fun a b => b ≤ a) := ⟨fun _ _ _ h1 h2 => le_trans h2 h1⟩

instance : IsAntisymm ℤ (fun a b => b ≤ a) := ⟨fun _ _ h1 h2 => le_antisymm h2 h1⟩

theorem sortDesc_perm (l : List ℤ) : List.Perm (sortDesc l) l :=
  List.perm_insertionSort _ l

theorem sortDesc_sorted (l : List ℤ) : (sortDesc l).Sorted (fun a b => b ≤ a) :=
  List.sorted_insertionSort _ l

theorem sortDesc_eq_of_perm {l1 l2 : List ℤ} (h : List.Perm l1 l2) :
    sortDesc l1 = sortDesc l2 :=
  List.eq_of_perm_of_sorted
    ((List.perm_insertionSort _ l1).trans (h.trans (List.perm_insertionSort _ l2).symm))
    (List.sorted_insertionSort _ l1) (List.sorted_insertionSort _ l2)

theorem sortAsc_eq_of_perm {l1 l2 : List ℤ} (h : List.Perm l1 l2) :
    sortAsc l1 = sortAsc l2 :=
  List.eq_of_perm_of_sorted
    ((List.perm_insertionSort _ l1).trans (h.trans (List.perm_insertionSort _ l2).symm))
    (List.sorted_insertionSort _ l1) (List.sorted_insertionSort _ l2)

theorem latest_scan_eq_none_iff (row : ℤ → Option ℚ) (l : List ℤ) :
    latest_scan row l = none ↔ ∀ y ∈ l, row y = none := by
  induction l with
  | nil => simp [latest_scan]
  | cons z zs ih =>
    cases hz : row z with
    | some v => simp [latest_scan, hz]
    | none => simp [latest_scan, hz, ih]

theorem latest_scan_sorted_max (row : ℤ → Option ℚ) :
    ∀ l : List ℤ, l.Sorted (fun a b => b ≤ a) →
      ∀ (v : ℚ) (y : ℤ), latest_scan row l = some (v, y) →
        y ∈ l ∧ row y = some v ∧ ∀ y' ∈ l, y < y' → row y' = none := by
  intro l
  induction l with
  | nil => intro _ v y h; simp [latest_scan] at h
  | cons z zs ih =>
    intro hs v y h
    have hzs : zs.Sorted (fun a b => b ≤ a) := hs.of_cons
    have hz_le : ∀ y' ∈ zs, y' ≤ z := fun y' hy' => (List.pairwise_cons.mp hs).1 y' hy'
    cases hz : row z with
    | some v0 =>
      rw [latest_scan, hz] at h
      obtain ⟨rfl, rfl⟩ : v0 = v ∧ z = y := by simpa using h
      refine ⟨List.mem_cons_self _ _, hz, ?_⟩
      intro y' hy' hlt
      rcases List.mem_cons.mp hy' with rfl | hy'
      · exact absurd hlt (lt_irrefl _)
      · exact absurd (lt_of_lt_of_le hlt (hz_le y' hy')) (lt_irrefl _)
    | none =>
      rw [latest_scan, hz] at h
      obtain ⟨hmem, hrow, hmax⟩ := ih hzs v y h
      refine ⟨List.mem_cons_of_mem _ hmem, hrow, ?_⟩
      intro y' hy' hlt
      rcases List.mem_cons.mp hy' with rfl | hy'
      · exact hz
      · exact hmax y' hy' hlt

/-- C4: `latest_value` returns the value and period of the greatest period
at which the row holds a present value (all strictly later known periods
are missing), returns the sentinel exactly when every known period is
missing, and on the example row `{2020: 10, 2022: 30}` with known periods
2020-2023 returns `(30, 2022)`. -/
theorem latest_value_spec :
    (∀ (row : ℤ → Option ℚ) (cols : List ℤ) (v : ℚ) (y : ℤ),
        latest_value row cols = some (v, y) →
          y ∈ cols ∧ row y = some v ∧ ∀ y' ∈ cols, y < y' → row y' = none)
    ∧ (∀ (row : ℤ → Option ℚ) (cols : List ℤ),
        latest_value row cols = none ↔ ∀ y ∈ cols, row y = none)
    ∧ latest_value exRow [2020, 2021, 2022, 2023] = some (30, 2022) := by
  refine ⟨?_, ?_, ?_⟩
  · intro row cols v y h
    obtain ⟨hmem, hrow, hmax⟩ :=
      latest_scan_sorted_max row (sortDesc cols) (sortDesc_sorted cols) v y h
    exact ⟨(sortDesc_perm cols).mem_iff.mp hmem, hrow,
      fun y' hy' => hmax y' ((sortDesc_perm cols).mem_iff.mpr hy')⟩
  · intro row cols
    rw [latest_value, latest_scan_eq_none_iff]
    exact ⟨fun h y hy => h y ((sortDesc_perm cols).mem_iff.mpr hy),
      fun h y hy => h y ((sortDesc_perm cols).mem_iff.mp hy)⟩
  · decide

/-- Witness for C4: the returned pair on the example row is a present
value of the row. -/
theorem latest_value_spec_witness : exRow 2022 = some 30 :=
  (latest_value_spec.1 exRow [2020, 2021, 2022, 2023] 30 2022 (by decide)).2.1

/-- C7: `latest_value` gives the same result on any two period lists that
are permutations of each other; as a pure function of its arguments it has
no side effects on the row or the list. -/
theorem latest_value_perm_invariant :
    ∀ (row : ℤ → Option ℚ) (l1 l2 : List ℤ), List.Perm l1 l2 →
      latest_value row l1 = latest_value row l2 := by
  intro row l1 l2 h
  unfold latest_value
  rw [sortDesc_eq_of_perm h]

/-- Witness for C7 on the example row and a transposed period list. -/
theorem latest_value_perm_invariant_witness :
    latest_value exRow [2020, 2022] = latest_value exRow [2022, 2020] :=
  latest_value_perm_invariant exRow _ _ (by decide)

/-- C1: `pct_change` returns `(b - a) / a * 100` when both inputs are
present and `a ≠ 0`, and returns the "no value" sentinel exactly when `a`
is missing, `b` is missing, or `a = 0`. -/
theorem pct_change_spec :
    (∀ a b : ℚ, a ≠ 0 → pct_change (some a) (some b) = some ((b - a) / a * 100))
    ∧ ∀ a? b? : Option ℚ,
        pct_change a? b? = none ↔ a? = none ∨ b? = none ∨ a? = some 0 := by
  constructor
  · intro a b ha
    simp [pct_change, ha]
  · intro a? b?
    cases a? with
    | none => simp [pct_change]
    | some a =>
      cases b? with
      | none => simp [pct_change]
      | some b => by_cases ha : a = 0 <;> simp [pct_change, ha]

/-- Witness for C1 at `a = 1`, `b = 3`. -/
theorem pct_change_spec_witness :
    pct_change (some 1) (some 3) = some ((3 - 1) / 1 * 100) :=
  pct_change_spec.1 1 3 (by norm_num)

/-- C2 counterexample: `a = -1` is non-positive, yet `pct_change` returns
the numeric value `-200` rather than the "no value" sentinel. -/
theorem pct_change_nonpos_cex :
    (-1 : ℚ) ≤ 0 ∧ pct_change (some (-1)) (some 1) = some (-200)
      ∧ pct_change (some (-1)) (some 1) ≠ none := by
  refine ⟨by norm_num, by norm_num [pct_change], by simp [pct_change]⟩

/-- C2 amended: `pct_change` returns the "no value" sentinel when `a` is
missing, `b` is missing, or `a = 0`; for strictly negative `a` with both
inputs present it returns the numeric value `(b - a) / a * 100` instead of
the sentinel. -/
theorem pct_change_noValue :
    (∀ a? b? : Option ℚ, a? = none ∨ b? = none ∨ a? = some 0 →
      pct_change a? b? = none)
    ∧ ∀ a b : ℚ, a < 0 → pct_change (some a) (some b) = some ((b - a) / a * 100) := by
  constructor
  · rintro a? b? (rfl | rfl | rfl)
    · simp [pct_change]
    · cases a? <;> simp [pct_change]
    · cases b? <;> simp [pct_change]
  · intro a b ha
    simp [pct_change, ne_of_lt ha]

/-- Witness for the amended C2 at a missing first argument and at
`a = -2`. -/
theorem pct_change_noValue_witness :
    pct_change none (some 5) = none ∧
      pct_change (some (-2)) (some 4) = some ((4 - -2) / -2 * 100) :=
  ⟨pct_change_noValue.1 none (some 5) (Or.inl rfl),
   pct_change_noValue.2 (-2) 4 (by norm_num)⟩

theorem annual_growth_loop_eq_filterMap :
    ∀ vs : List (Option ℚ), annual_growth_loop vs = (vs.zip vs.tail).filterMap gstep
  | [] => rfl
  | [a] => by cases a <;> rfl
  | a :: b :: rest => by
    have ih := annual_growth_loop_eq_filterMap (b :: rest)
    cases a with
    | none => simpa [annual_growth_loop, gstep, List.filterMap_cons] using ih
    | some a' =>
      cases b with
      | none => simpa [annual_growth_loop, gstep, List.filterMap_cons] using ih
      | some b' =>
        by_cases h : 0 < a' <;>
          simp [annual_growth_loop, gstep, List.filterMap_cons, h, ih]

/-- C5: the growth sequence built by `annual_growth_series` is exactly the
chronological list of percent changes of the surviving consecutive pairs
(both endpoints present, earlier one positive) of the row's values over
its ascending periods; its length is at most one less than the number of
periods; and on values `[100, 110, missing, 99]` over periods 2020-2023 it
is exactly `[10.0]`. -/
theorem annual_growth_series_spec :
    (∀ (row : ℤ → Option ℚ) (cols : List ℤ),
        annual_growth_series row cols =
          (((get_year_cols cols).map row).zip
            ((get_year_cols cols).map row).tail).filterMap gstep)
    ∧ (∀ (row : ℤ → Option ℚ) (cols : List ℤ),
        (annual_growth_series row cols).length ≤ cols.length - 1)
    ∧ annual_growth_series growRow [2020, 2021, 2022, 2023] = [10] := by
  refine ⟨fun row cols => annual_growth_loop_eq_filterMap _, ?_, ?_⟩
  · intro row cols
    rw [annual_growth_series, annual_growth_loop_eq_filterMap]
    have h1 := List.length_filterMap_le gstep
      (((get_year_cols cols).map row).zip ((get_year_cols cols).map row).tail)
    have h2 : ((get_year_cols cols).map row).length = cols.length := by
      rw [List.length_map, get_year_cols, sortAsc, List.length_insertionSort]
    rw [List.length_zip, List.length_tail, h2] at h1
    omega
  · norm_num [annual_growth_series, get_year_cols, sortAsc, List.insertionSort,
      List.orderedInsert, growRow, annual_growth_loop]

theorem growth_loops_eq :
    ∀ l : List (Option ℚ), annual_growth_loop l = series_growth_loop l
  | [] => rfl
  | [a] => by cases a <;> rfl
  | a :: b :: rest => by
    have ih := growth_loops_eq (b :: rest)
    cases a <;> cases b <;> simp [annual_growth_loop, series_growth_loop, ih]

/-- C10: on any row whose own period columns are, as a set, the
dataframe's year columns, `annual_growth_series` and the Surprising
Growers tab's inline `series_growth` (which receives the year columns
already sorted by `get_year_cols`) produce the same list of percent
changes. -/
theorem growth_series_equivalence :
    ∀ (row : ℤ → Option ℚ) (rcols dcols : List ℤ), List.Perm rcols dcols →
      annual_growth_series row rcols = series_growth row (get_year_cols dcols) := by
  intro row rcols dcols h
  rw [annual_growth_series, series_growth, growth_loops_eq]
  simp only [get_year_cols]
  rw [sortAsc_eq_of_perm h]

/-- Witness for C10 on the example row with the row's columns listed in a
different order than the dataframe's. -/
theorem growth_series_equivalence_witness :
    annual_growth_series growRow [2021, 2020, 2022, 2023] =
      series_growth growRow (get_year_cols [2020, 2021, 2022, 2023]) :=
  growth_series_equivalence growRow _ _ (by decide)

/-- C3 counterexample: at `a = 1`, `b = -1`, `n = 5` none of the claimed
sentinel conditions holds — both endpoints are present, `a > 0` and
`n > 0` — yet the program returns the sentinel, because the float power
`(b / a) ** (1.0 / 5)` has the negative base `-1` and the non-integer
exponent `0.2` and so evaluates to `NaN`. -/
theorem cagr_nan_cex :
    cagr (fun (x : ℚ) (_ : ℤ) => x) (some 1) (some (-1)) 5 = none
      ∧ ¬((1 : ℚ) ≤ 0) ∧ ¬((5 : ℤ) ≤ 0) :=
  ⟨by norm_num [cagr], by norm_num, by norm_num⟩

/-- C3 amended: `cagr` returns `((b / a) ** (1 / n) - 1) * 100` — with the
n-th root abstracted as `rt` — whenever `a > 0`, `b > 0` and `n > 0`,
returns the "no value" sentinel exactly when `a` is missing, `b` is
missing, `a ≤ 0`, `n ≤ 0`, or the ratio `b / a` is negative with `n ≠ 1`
(the float power has a negative base and a non-integer exponent and
yields `NaN`), and for the row `{2020: 1000, 2025: 2000}` over 5 periods,
instantiating the root with `Real.rpow`, the CAGR lies strictly between
14.86% and 14.88%, i.e. is approximately 14.87%. -/
theorem cagr_spec :
    (∀ {α : Type} [LinearOrderedField α] (rt : α → ℤ → α) (a b : α) (n : ℤ),
        0 < a → 0 < b → 0 < n →
        cagr rt (some a) (some b) n = some ((rt (b / a) n - 1) * 100))
    ∧ (∀ {α : Type} [LinearOrderedField α] (rt : α → ℤ → α)
        (a? b? : Option α) (n : ℤ),
        cagr rt a? b? n = none ↔
          a? = none ∨ b? = none ∨ (∃ a, a? = some a ∧ a ≤ 0) ∨ n ≤ 0
            ∨ ∃ a b, a? = some a ∧ b? = some b ∧ b / a < 0 ∧ n ≠ 1)
    ∧ (∃ v : ℝ, cagr (fun (x : ℝ) (m : ℤ) => x ^ ((m : ℝ)⁻¹))
          (some 1000) (some 2000) 5 = some v
        ∧ (1486/100 : ℝ) < v ∧ v < 1488/100) := by
  refine ⟨?_, ?_, ?_⟩
  · intro α _inst rt a b n ha hb hn
    have h1 : ¬(a ≤ 0 ∨ n ≤ 0) := by push_neg; exact ⟨ha, hn⟩
    have h2 : ¬(b / a < 0 ∧ n ≠ 1) := fun h => absurd h.1 (div_pos hb ha).not_lt
    simp only [cagr]
    rw [if_neg h1, if_neg h2]
  · intro α _inst rt a? b? n
    cases a? with
    | none => simp [cagr]
    | some a =>
      cases b? with
      | none => simp [cagr]
      | some b =>
        constructor
        · intro hnone
          by_cases h : a ≤ 0 ∨ n ≤ 0
          · rcases h with h | h
            · exact Or.inr (Or.inr (Or.inl ⟨a, rfl, h⟩))
            · exact Or.inr (Or.inr (Or.inr (Or.inl h)))
          · by_cases h2 : b / a < 0 ∧ n ≠ 1
            · exact Or.inr (Or.inr (Or.inr (Or.inr ⟨a, b, rfl, rfl, h2⟩)))
            · simp only [cagr] at hnone
              rw [if_neg h, if_neg h2] at hnone
              exact absurd hnone (by simp)
        · intro h
          rcases h with h | h | ⟨a', ha', hle⟩ | h | ⟨a', b', ha', hb', hcond⟩
          · exact absurd h (by simp)
          · exact absurd h (by simp)
          · obtain rfl : a = a' := by injection ha'
            simp only [cagr]
            rw [if_pos (Or.inl hle)]
          · simp only [cagr]
            rw [if_pos (Or.inr h)]
          · obtain rfl : a = a' := by injection ha'
            obtain rfl : b = b' := by injection hb'
            simp only [cagr]
            by_cases hg : a ≤ 0 ∨ n ≤ 0
            · rw [if_pos hg]
            · rw [if_neg hg, if_pos hcond]
  · refine ⟨((2:ℝ) ^ ((5:ℝ)⁻¹) - 1) * 100, ?_, ?_⟩
    · simp only [cagr]
      norm_num
    · have hr : (0:ℝ) < (2:ℝ) ^ ((5:ℝ)⁻¹) := Real.rpow_pos_of_pos (by norm_num) _
      have h5 : ((2:ℝ) ^ ((5:ℝ)⁻¹)) ^ (5:ℕ) = 2 := by
        rw [← Real.rpow_natCast ((2:ℝ) ^ ((5:ℝ)⁻¹)) 5, ← Real.rpow_mul (by norm_num)]
        norm_num
      set r : ℝ := (2:ℝ) ^ ((5:ℝ)⁻¹) with hrdef
      constructor
      · have h1 : (11486/10000 : ℝ) < r := by
          by_contra hcon
          push_neg at hcon
          have h := pow_le_pow_left₀ hr.le hcon 5
          rw [h5] at h
          norm_num at h
        linarith
      · have h2 : r < (11488/10000 : ℝ) := by
          by_contra hcon
          push_neg at hcon
          have h := pow_le_pow_left₀ (by norm_num : (0:ℝ) ≤ 11488/10000) hcon 5
          rw [h5] at h
          norm_num at h
        linarith

/-- Witness for C3 at `a = 1000`, `b = 2000`, `n = 5` over `ℚ` with the
identity in place of the root. -/
theorem cagr_spec_witness :
    cagr (fun (x : ℚ) (_ : ℤ) => x) (some 1000) (some 2000) 5
      = some (((2000:ℚ) / 1000 - 1) * 100) :=
  cagr_spec.1 (fun (x : ℚ) (_ : ℤ) => x) 1000 2000 5 (by norm_num) (by norm_num)
    (by norm_num)

/-- C6: on an empty growth sequence both volatility summaries are the "no
value" sentinel — no statistic is computed on empty input. -/
theorem volatility_empty :
    ∀ sq : ℚ → ℚ, Volatility_SD sq [] = none ∧ Avg_Annual_Growth [] = none :=
  fun _ => ⟨rfl, rfl⟩

theorem sum_sq_sub (g : List ℚ) (c : ℚ) :
    (g.map (fun x => (x - c) ^ 2)).sum
      = (g.map (fun x => x ^ 2)).sum - 2 * c * g.sum + g.length * c ^ 2 := by
  induction g with
  | nil => simp
  | cons a t ih =>
    simp only [List.map_cons, List.sum_cons, List.length_cons, ih]
    push_cast
    ring

/-- C9: on a non-empty growth sequence the program's volatility is the
square root of the population variance (divisor `n`, `ddof = 0` of
`np.std`): that variance satisfies the population identity
`mean of squares minus square of mean`, and on the sequence `[0, 2]` it is
`1` while the sample variance (divisor `n - 1`) is `2`, so the two
disagree. -/
theorem volatility_population_sd :
    (∀ (sq : ℚ → ℚ) (g : List ℚ), g ≠ [] →
        Volatility_SD sq g = some (sq (popVariance g)))
    ∧ (∀ g : List ℚ, g ≠ [] →
        popVariance g
          = (g.map (fun x => x ^ 2)).sum / g.length - (g.sum / g.length) ^ 2)
    ∧ popVariance [0, 2] = 1 ∧ sampleVariance [0, 2] = 2
    ∧ popVariance [0, 2] ≠ sampleVariance [0, 2] := by
  refine ⟨?_, ?_, ?_, ?_, ?_⟩
  · intro sq g hg
    rw [Volatility_SD, if_pos (List.length_pos.mpr hg)]
    rfl
  · intro g hg
    have hn : (g.length : ℚ) ≠ 0 := Nat.cast_ne_zero.mpr (List.length_pos.mpr hg).ne'
    rw [popVariance, sum_sq_sub]
    field_simp
    ring
  · norm_num [popVariance]
  · norm_num [sampleVariance]
  · norm_num [popVariance, sampleVariance]

/-- Witness for C9 on the growth sequence `[0, 2]` with the identity
square root. -/
theorem volatility_population_sd_witness :
    Volatility_SD id [0, 2] = some (id (popVariance [0, 2])) :=
  volatility_population_sd.1 id [0, 2] (by decide)

/-- C8: the core metric functions are total by construction (they are
plain Lean functions on all inputs) and on every undefined input they
return the "no value" sentinel, never a substituted zero: `pct_change` on
missing or zero base, `cagr` on missing endpoints, non-positive base or
non-positive period count, `latest_value` on an all-missing row, the
growth loop on a missing leading endpoint (the transition is dropped, not
zero-filled), and both volatility summaries on an empty sequence. -/
theorem core_total_no_silent_zero :
    (∀ a? b? : Option ℚ, a? = none ∨ b? = none ∨ a? = some 0 →
        pct_change a? b? = none ∧ pct_change a? b? ≠ some 0)
    ∧ (∀ {α : Type} [LinearOrderedField α] (rt : α → ℤ → α)
        (a? b? : Option α) (n : ℤ),
        a? = none ∨ b? = none ∨ (∃ a, a? = some a ∧ a ≤ 0) ∨ n ≤ 0 →
        cagr rt a? b? n = none ∧ cagr rt a? b? n ≠ some 0)
    ∧ (∀ (row : ℤ → Option ℚ) (cols : List ℤ),
        (∀ y ∈ cols, row y = none) → latest_value row cols = none)
    ∧ (∀ vs : List (Option ℚ),
        annual_growth_loop (none :: vs) = annual_growth_loop vs)
    ∧ (∀ sq : ℚ → ℚ, Volatility_SD sq [] = none ∧ Avg_Annual_Growth [] = none) := by
  refine ⟨?_, ?_, ?_, ?_, fun _ => ⟨rfl, rfl⟩⟩
  · intro a? b? h
    have hnone : pct_change a? b? = none := by
      rcases h with rfl | rfl | rfl
      · simp [pct_change]
      · cases a? <;> simp [pct_change]
      · cases b? <;> simp [pct_change]
    rw [hnone]
    exact ⟨rfl, by simp⟩
  · intro α _inst rt a? b? n h
    have hnone : cagr rt a? b? n = none := by
      rcases h with rfl | rfl | ⟨a, rfl, ha⟩ | hn
      · simp [cagr]
      · cases a? <;> simp [cagr]
      · cases b? with
        | none => simp [cagr]
        | some b => simp [cagr, ha]
      · cases a? with
        | none => simp [cagr]
        | some a =>
          cases b? with
          | none => simp [cagr]
          | some b => simp [cagr, hn]
    rw [hnone]
    exact ⟨rfl, by simp⟩
  · intro row cols h
    rw [latest_value, latest_scan_eq_none_iff]
    exact fun y hy => h y ((sortDesc_perm cols).mem_iff.mp hy)
  · intro vs
    cases vs with
    | nil => rfl
    | cons b rest => cases b <;> rfl

/-- Witness for C8 at a missing first argument of `pct_change`. -/
theorem core_total_no_silent_zero_witness :
    pct_change none none = none ∧ pct_change none none ≠ some 0 :=
  core_total_no_silent_zero.1 none none (Or.inl rfl)

end GDPExplorer
